import Mathlib

/-!
Shallow embedding of the llm-rea-bot scraping pipeline.

The definitions below are translated from the repository sources:
`src/utils.py` (normalizers, persistence gateway), `src/models.py` and
`src/backend/models/scraper_models.py` (BrokerConfig), `src/scraper.py`
(PropertyScraper: per-listing processing with the rate-limit retry loop,
extraction-result interpretation, and the scraping orchestration loop) and
`src/crawlai.py` (per-broker driver).

External collaborators (the crawl4ai crawler, the LLM provider, html2text,
json.loads) are modeled as explicit environment parameters: each external
call site is represented by the outcome the collaborator hands back, with a
dedicated constructor for "the call raised an exception".  Python exceptions
are modeled with `Except String`, where `.error msg` is a raised exception
carrying `str(e) = msg`.
-/

/-- Python values as decoded from JSON and passed between pipeline steps. -/
inductive PyVal where
  | none
  | bool (b : Bool)
  | int (n : Int)
  | str (s : String)
  | list (xs : List PyVal)
  | dict (fields : List (String × PyVal))

/-- Concatenate strings with a separator (used by the `repr` model). -/
def joinSep (sep : String) : List String → String
  | [] => ""
  | [x] => x
  | x :: y :: t => x ++ sep ++ joinSep sep (y :: t)

/-- Python `repr` of a value.  String escaping inside `repr` of a string is
omitted (no claim depends on it); containers follow Python's
`[a, b]` / `\x7b'k': v\x7d` rendering. -/
def pyRepr : PyVal → String
  | .none => "None"
  | .bool b => if b then "True" else "False"
  | .int n => toString n
  | .str s => "\x27" ++ s ++ "\x27"
  | .list xs => "[" ++ joinSep ", " (xs.attach.map (fun x => pyRepr x.1)) ++ "]"
  | .dict fs =>
      "\x7b" ++
        joinSep ", " (fs.attach.map (fun f => "\x27" ++ f.1.1 ++ "\x27: " ++ pyRepr f.1.2)) ++
        "\x7d"
decreasing_by
  · have := List.sizeOf_lt_of_mem x.2
    simp only [PyVal.list.sizeOf_spec]
    omega
  · have := List.sizeOf_lt_of_mem f.2
    have h2 : sizeOf f.1.2 < sizeOf f.1 := by
      obtain ⟨a, b⟩ := f.1
      simp only [Prod.mk.sizeOf_spec]
      omega
    simp only [PyVal.dict.sizeOf_spec]
    omega

/-- Python `str()` of a value: identity on strings, `repr` otherwise (the
scalar `repr` cases are inlined so that `str()` of a scalar reduces by
kernel computation). -/
def pyStr : PyVal → String
  | .str s => s
  | .none => "None"
  | .bool b => if b then "True" else "False"
  | .int n => toString n
  | .list xs => pyRepr (.list xs)
  | .dict fs => pyRepr (.dict fs)

/-- Python truthiness of a value. -/
def pyTruthy : PyVal → Bool
  | .none => false
  | .bool b => b
  | .int n => n ≠ 0
  | .str s => s ≠ ""
  | .list xs => !xs.isEmpty
  | .dict fs => !fs.isEmpty

/-- Python `str.lower` (ASCII model, as used by the pipeline's inputs). -/
def pyLower (s : String) : String := ⟨s.toList.map Char.toLower⟩

/-- Python `str.upper` (ASCII model, as used by the pipeline's inputs). -/
def pyUpper (s : String) : String := ⟨s.toList.map Char.toUpper⟩

/-- Python `str.strip`'s whitespace class (ASCII part): space, tab,
newline, carriage return, vertical tab and form feed, by code point. -/
def pyIsSpace (c : Char) : Bool :=
  c.toNat = 32 || c.toNat = 9 || c.toNat = 10 || c.toNat = 13 || c.toNat = 11 || c.toNat = 12

/-- Strip leading and trailing whitespace from a character list. -/
def stripL (l : List Char) : List Char :=
  ((l.dropWhile pyIsSpace).reverse.dropWhile pyIsSpace).reverse

/-- Python `str.strip()`. -/
def pyStrip (s : String) : String := ⟨stripL s.toList⟩

/-- Whether `sub` occurs as a contiguous substring of `l`
(Python's `sub in hay` on the character level). -/
def listContainsSub (sub l : List Char) : Bool :=
  l.tails.any (fun t => sub.isPrefixOf t)

/-- Python `sub in hay` for strings. -/
def pyContains (hay sub : String) : Bool := listContainsSub sub.toList hay.toList

/-- Python `str.startswith(pre)` on the character level. -/
def pyStartsWith (s pre : String) : Bool := pre.toList.isPrefixOf s.toList

/-- Replace every non-overlapping occurrence of `pat` in the subject,
scanning left to right — the character-level model of Python's
`str.replace` for a nonempty pattern. -/
def replaceAllL (pat rep : List Char) : List Char → List Char
  | [] => []
  | c :: cs =>
    if pat ≠ [] ∧ pat.isPrefixOf (c :: cs) then
      rep ++ replaceAllL pat rep ((c :: cs).drop pat.length)
    else
      c :: replaceAllL pat rep cs
termination_by l => l.length
decreasing_by
  · rename_i h
    have hpre := ( List.isPrefixOf_iff_prefix.mp h.2)
    have hlen := hpre.length_le
    have hne : pat.length ≥ 1 := by
      cases pat with
      | nil => exact absurd rfl h.1
      | cons a t => simp
    simp only [List.length_drop, List.length_cons]
    omega
  · simp

/-- Split the subject at every non-overlapping occurrence of `pat`
(the character-level model of Python's `str.split(pat)` for a nonempty
pattern); `replaceAllL` equals rejoining these chunks with the
replacement. -/
def splitOnL (pat : List Char) : List Char → List (List Char)
  | [] => [[]]
  | c :: cs =>
    if pat ≠ [] ∧ pat.isPrefixOf (c :: cs) then
      [] :: splitOnL pat ((c :: cs).drop pat.length)
    else
      match splitOnL pat cs with
      | [] => [[c]]
      | chunk :: rest => (c :: chunk) :: rest
termination_by l => l.length
decreasing_by
  · rename_i h
    have hpre := ( List.isPrefixOf_iff_prefix.mp h.2)
    have hlen := hpre.length_le
    have hne : pat.length ≥ 1 := by
      cases pat with
      | nil => exact absurd rfl h.1
      | cons a t => simp
    simp only [List.length_drop, List.length_cons]
    omega
  · simp

/-- Join chunks with a separator (character-level `sep.join(chunks)`). -/
def joinWith (rep : List Char) : List (List Char) → List Char
  | [] => []
  | [x] => x
  | x :: y :: t => x ++ rep ++ joinWith rep (y :: t)

/-- Python `str.replace(pat, rep)`.  The empty-pattern case (which Python
defines as interleaving) is never exercised by the pipeline, whose patterns
are the literals `"{area}"` and `"{max_price}"`; it is modeled as the
identity. -/
def pyReplace (s pat rep : String) : String :=
  if pat = "" then s else ⟨replaceAllL pat.toList rep.toList s.toList⟩

/-- Digit value of an ASCII digit character. -/
def digitVal (c : Char) : Nat := c.toNat - 48

/-- Accumulator-based scan behind `findAllRuns`: `acc` holds the digits of
the run currently being read, in reverse. -/
def findAllRunsAux : List Char → List Char → List (List Char)
  | [], acc => if acc.isEmpty then [] else [acc.reverse]
  | c :: cs, acc =>
    if c.isDigit then findAllRunsAux cs (c :: acc)
    else if acc.isEmpty then findAllRunsAux cs []
    else acc.reverse :: findAllRunsAux cs []

/-- All maximal runs of digits in a character list, in order — the model of
`re.findall(r'\d+', s)` (ASCII digits). -/
def findAllRuns (l : List Char) : List (List Char) := findAllRunsAux l []

/-- The first run of digits found anywhere in the list (empty if none) —
the specification-side description of the numeric-field normalizers. -/
def firstDigitRun (l : List Char) : List Char :=
  (l.dropWhile (fun c => !c.isDigit)).takeWhile Char.isDigit

/-- Model of `clean_price` (src/utils.py:136-141): falsy input yields `""`,
otherwise the first digit run of `str(price)`, else `""`. -/
def clean_price (price : PyVal) : String :=
  if !pyTruthy price then ""
  else
    match findAllRuns (pyStr price).toList with
    | [] => ""
    | r :: _ => ⟨r⟩

/-- Model of `clean_area` (src/utils.py:143-148), identical in body to
`clean_price`. -/
def clean_area (area : PyVal) : String :=
  if !pyTruthy area then ""
  else
    match findAllRuns (pyStr area).toList with
    | [] => ""
    | r :: _ => ⟨r⟩

/-- Model of `clean_bedrooms` (src/utils.py:150-155), identical in body to
`clean_price`. -/
def clean_bedrooms (bedrooms : PyVal) : String :=
  if !pyTruthy bedrooms then ""
  else
    match findAllRuns (pyStr bedrooms).toList with
    | [] => ""
    | r :: _ => ⟨r⟩

/-- Model of `clean_boolean` (src/utils.py:157-163). -/
def clean_boolean (value : PyVal) : String :=
  match value with
  | .bool b => pyLower (pyStr (.bool b))
  | .str s => if pyLower s ∈ ["true", "yes", "1", "y"] then "true" else "false"
  | _ => "false"

/-- Model of `clean_status` (src/utils.py:165-169). -/
def clean_status (status : PyVal) : String :=
  let st := if pyTruthy status then pyLower (pyStr status) else "available"
  if st ∈ ["available", "rented", "option"] then st else "available"

/-- The valid energy labels, in source order (src/utils.py:118). -/
def validEnergyLabels : List String := ["A++", "A+", "A", "B", "C", "D", "E", "F", "G"]

/-- Model of `clean_energy_label` (src/utils.py:106-119): falsy input yields
`""`; otherwise `str(label).upper().strip()` is returned when it is a valid
label and `""` otherwise. -/
def clean_energy_label (label : PyVal) : String :=
  if !pyTruthy label then ""
  else
    let l := pyStrip (pyUpper (pyStr label))
    if l ∈ validEnergyLabels then l else ""

/-- Month candidates of CPython's `_strptime` regex fragment for `%m`,
`1[0-2]|0[1-9]|[1-9]`, in alternation order.  Each candidate pairs the
month value with the unconsumed remainder, so that the caller can model the
regex engine's backtracking. -/
def monthCands : List Char → List (Nat × List Char)
  | c1 :: c2 :: rest =>
    (if c1 = '1' ∧ ('0' ≤ c2 ∧ c2 ≤ '2') then [(10 + digitVal c2, rest)] else []) ++
    (if c1 = '0' ∧ ('1' ≤ c2 ∧ c2 ≤ '9') then [(digitVal c2, rest)] else []) ++
    (if '1' ≤ c1 ∧ c1 ≤ '9' then [(digitVal c1, c2 :: rest)] else [])
  | [c1] => if '1' ≤ c1 ∧ c1 ≤ '9' then [(digitVal c1, [])] else []
  | [] => []

/-- Day candidates of CPython's `_strptime` regex fragment for `%d`,
`3[01]|[12]\d|0[1-9]|[1-9]`, in alternation order. -/
def dayCands : List Char → List (Nat × List Char)
  | c1 :: c2 :: rest =>
    (if c1 = '3' ∧ (c2 = '0' ∨ c2 = '1') then [(30 + digitVal c2, rest)] else []) ++
    (if (c1 = '1' ∨ c1 = '2') ∧ c2.isDigit then [(digitVal c1 * 10 + digitVal c2, rest)] else []) ++
    (if c1 = '0' ∧ ('1' ≤ c2 ∧ c2 ≤ '9') then [(digitVal c2, rest)] else []) ++
    (if '1' ≤ c1 ∧ c1 ≤ '9' then [(digitVal c1, c2 :: rest)] else [])
  | [c1] => if '1' ≤ c1 ∧ c1 ≤ '9' then [(digitVal c1, [])] else []
  | [] => []

/-- Gregorian leap-year rule, as implemented by `datetime`. -/
def isLeapYear (y : Nat) : Bool := y % 4 = 0 && (y % 100 ≠ 0 || y % 400 = 0)

/-- Days in a month, as validated by the `datetime` constructor. -/
def daysInMonth (y m : Nat) : Nat :=
  if m = 2 then (if isLeapYear y then 29 else 28)
  else if m ∈ [4, 6, 9, 11] then 30
  else 31

/-- Model of `datetime.strptime(s, "%Y-%m-%d")`: `%Y` is exactly four
digits, `%m` and `%d` follow the `_strptime` regex alternations (with
backtracking, candidates tried in order and the full input required to be
consumed), and the resulting numbers must form a real calendar date with
year at least `datetime.MINYEAR = 1`. -/
def parseYMD (s : String) : Option (Nat × Nat × Nat) :=
  match s.toList with
  | y1 :: y2 :: y3 :: y4 :: '-' :: rest =>
    if y1.isDigit ∧ y2.isDigit ∧ y3.isDigit ∧ y4.isDigit then
      let y := digitVal y1 * 1000 + digitVal y2 * 100 + digitVal y3 * 10 + digitVal y4
      let full := ((monthCands rest).map (fun mc =>
        match mc.2 with
        | '-' :: r2 =>
          ((dayCands r2).map (fun dc => if dc.2 = [] then [(mc.1, dc.1)] else [])).flatten
        | _ => [])).flatten
      match full with
      | [] => Option.none
      | (m, d) :: _ =>
        if 1 ≤ y ∧ d ≤ daysInMonth y m then some (y, m, d) else Option.none
    else Option.none
  | _ => Option.none

/-- Zero-pad a number to two digits, as `strftime`'s `%m` / `%d` do. -/
def pad2 (n : Nat) : String := if n < 10 then "0" ++ toString n else toString n

/-- Model of `datetime(y, m, d).strftime("%Y-%m-%d")`.  The year is
rendered unpadded as glibc's `%Y` does; every four-digit year round-trips
unchanged. -/
def fmtYMD (y m d : Nat) : String := toString y ++ "-" ++ pad2 m ++ "-" ++ pad2 d

/-- Model of `clean_date` (src/utils.py:171-179).  Only `ValueError` is
caught in the source, so a falsy input yields `""`, a string input yields
the reformatted date or `""`, and a truthy non-string input raises
`TypeError` out of the function (modeled as `.error`). -/
def clean_date (date_str : PyVal) : Except String String :=
  if !pyTruthy date_str then .ok ""
  else
    match date_str with
    | .str s =>
      match parseYMD s with
      | some (y, m, d) => .ok (fmtYMD y m d)
      | Option.none => .ok ""
    | _ => .error "TypeError: strptime() argument 1 must be str"

/-- Strip any of the given characters from both ends (Python `str.strip(chars)`). -/
def stripChars (cs : List Char) (l : List Char) : List Char :=
  ((l.dropWhile (fun c => cs.contains c)).reverse.dropWhile (fun c => cs.contains c)).reverse

/-- Scan, after an opening `(`, for the lazily-matched second group of
`\[(.*?)\]\((.*?)\)`: the characters up to the first `)` on the same line. -/
def grabParen : List Char → List Char → Option (List Char)
  | [], _ => Option.none
  | ')' :: _, acc => some acc.reverse
  | '\n' :: _, _ => Option.none
  | c :: rest, acc => grabParen rest (c :: acc)

/-- Scan, after an opening `[`, for the first `](` on the same line and hand
the remainder to `grabParen`.  (If no `)` follows the first `](` on the
line, no later `](` on that line can be followed by one either, so
committing to the first `](` is equivalent to the regex's backtracking.) -/
def grabGroup2 : List Char → Option (List Char)
  | [] => Option.none
  | ']' :: '(' :: rest => grabParen rest []
  | '\n' :: _ => Option.none
  | _ :: rest => grabGroup2 rest

/-- Leftmost match of `re.search(r'\[(.*?)\]\((.*?)\)', s)`, yielding the
second group. -/
def mdSearch : List Char → Option (List Char)
  | [] => Option.none
  | '[' :: rest =>
    match grabGroup2 rest with
    | some g => some g
    | Option.none => mdSearch rest
  | _ :: rest => mdSearch rest

/-- Model of `clean_url` (src/utils.py:11-30): drop angle brackets, strip
surrounding quotes then whitespace, and unwrap `[text](url)` markdown. -/
def clean_url (url : String) : String :=
  if url = "" then ""
  else
    let l1 := url.toList.filter (fun c => c ≠ '<' ∧ c ≠ '>')
    let l2 := stripL (stripChars ['"', '\x27'] l1)
    match mdSearch l2 with
    | some g => ⟨g⟩
    | Option.none => ⟨l2⟩

/-- Characters `urllib.parse` admits inside a URL scheme. -/
def isSchemeChar (c : Char) : Bool := c.isAlpha || c.isDigit || c = '+' || c = '-' || c = '.'

/-- Split a leading `scheme:` off a URL, as `urllib.parse.urlsplit` does. -/
def splitSchemeL (l : List Char) : Option (List Char × List Char) :=
  let before := l.takeWhile (fun c => c ≠ ':')
  let after := l.drop before.length
  match after with
  | ':' :: rest =>
    match before with
    | [] => Option.none
    | c0 :: _ => if c0.isAlpha && before.all isSchemeChar then some (before, rest) else Option.none
  | _ => Option.none

/-- The URL with its `scheme:` removed (identity when there is none). -/
def afterScheme (l : List Char) : List Char :=
  match splitSchemeL l with
  | some p => p.2
  | Option.none => l

/-- The netloc component as `urllib.parse.urlparse` computes it: present
exactly when the scheme-stripped URL starts with `//`, running up to the
next `/`, `?` or `#`. -/
def netlocOf (l : List Char) : List Char :=
  match afterScheme l with
  | '/' :: '/' :: rest => rest.takeWhile (fun c => c ≠ '/' ∧ c ≠ '?' ∧ c ≠ '#')
  | _ => []

/-- Whether `urlparse(url).netloc` is nonempty — the absoluteness test used
by `ensure_full_url`. -/
def hasNetloc (url : String) : Bool := !(netlocOf url.toList).isEmpty

/-- Model of `urllib.parse.urljoin` on the shapes the pipeline produces: an
empty base (where `urljoin` returns the URL unchanged) or an absolute
`http(s)://host[/path]` broker domain joined with a scheme-relative,
root-relative or path-relative reference.  Dot-segment normalization and
query/fragment handling are omitted; no theorem below constrains the joined
value. -/
def pyUrljoin (base url : String) : String :=
  if base = "" then url
  else if url = "" then base
  else if (splitSchemeL url.toList).isSome then url
  else
    let bl := base.toList
    let scheme : String := match splitSchemeL bl with
      | some p => ⟨p.1⟩
      | Option.none => ""
    match url.toList with
    | '/' :: '/' :: _ => scheme ++ ":" ++ url
    | '/' :: _ => scheme ++ "://" ++ (⟨netlocOf bl⟩ : String) ++ url
    | _ =>
      let path := (afterScheme bl).dropWhile (fun c => c = '/') |>.dropWhile (fun c => c ≠ '/')
      let dir := (path.reverse.dropWhile (fun c => c ≠ '/')).reverse
      scheme ++ "://" ++ (⟨netlocOf bl⟩ : String) ++ (⟨dir⟩ : String) ++ url

/-- Model of `ensure_full_url` (src/utils.py:121-131 and src/scraper.py:15-25,
identical bodies): empty URLs stay empty, URLs with a netloc are already
absolute, anything else is joined against the base. -/
def ensure_full_url (base_url url : String) : String :=
  if url = "" then ""
  else if hasNetloc url then url
  else pyUrljoin base_url url

/-- Broker configuration (src/models.py:16-28 and
src/backend/models/scraper_models.py:17-30; the backend variant adds
`fetch_detail_pages`, which is carried here so every field named by the
specification is represented). -/
structure BrokerConfig where
  name : String
  domain : String
  url_template : String
  listing_selector : String
  next_button_selector : String
  cookie_modal_selector : String
  fetch_detail_pages : Bool
deriving DecidableEq

/-- Model of `BrokerConfig.get_url` (src/models.py:26-28):
`self.url_template.replace("{area}", area)`. -/
def BrokerConfig.get_url (b : BrokerConfig) (area : String) : String :=
  pyReplace b.url_template "{area}" area

/-- The broker mutation performed by `PropertyScraper.__init__`
(src/scraper.py:38-40): a nonempty domain lacking an `http://` or
`https://` scheme is rewritten in place to `https://` + domain. -/
def scraper_init_broker (b : BrokerConfig) : BrokerConfig :=
  if (b.domain != "") && !(pyStartsWith b.domain "http://" || pyStartsWith b.domain "https://") then
    { b with domain := "https://" ++ b.domain }
  else b

/-- The broker mutation performed by `scrape_single_broker`
(src/crawlai.py:34-36): when `{max_price}` occurs in the URL template it is
substituted in place. -/
def apply_max_price (b : BrokerConfig) (max_price : Int) : BrokerConfig :=
  if pyContains b.url_template "{max_price}" then
    { b with url_template := pyReplace b.url_template "{max_price}" (toString max_price) }
  else b

/-- Python `d.get(k, default)` over the association-list model of a dict. -/
def pyGetD (l : List (String × PyVal)) (k : String) (d : PyVal) : PyVal :=
  match l with
  | [] => d
  | (k1, v) :: rest => if k1 = k then v else pyGetD rest k d

/-- Python `d.get(k)` (default `None`). -/
def pyGet (l : List (String × PyVal)) (k : String) : PyVal := pyGetD l k .none

/-- Lookup in a string-valued record with a default. -/
def lookupSD (l : List (String × String)) (k d : String) : String :=
  match l with
  | [] => d
  | (k1, v) :: rest => if k1 = k then v else lookupSD rest k d

/-- Model of `clean_property_data` (src/utils.py:133-200).  It returns the
cleaned record (in the source's field order) together with the list of
required fields that were logged as missing — the record itself is returned
unconditionally.  `clean_date` is the only sub-cleaner that can raise; it
is evaluated first here, which is observationally equivalent to the
source's literal field order because every other cleaner is total. -/
def clean_property_data (data : List (String × PyVal)) (base_url : String) :
    Except String (List (String × String) × List String) :=
  match clean_date (pyGet data "available_from") with
  | .error e => .error e
  | .ok af =>
    let cleaned : List (String × String) := [
      ("address", pyStrip (pyStr (pyGetD data "address" (.str "")))),
      ("price", clean_price (pyGet data "price")),
      ("area", clean_area (pyGet data "area")),
      ("bedrooms", clean_bedrooms (pyGet data "bedrooms")),
      ("energy_label", clean_energy_label (pyGet data "energy_label")),
      ("furnished", clean_boolean (pyGet data "furnished")),
      ("including_bills", clean_boolean (pyGet data "including_bills")),
      ("status", clean_status (pyGet data "status")),
      ("available_from", af),
      ("url", ensure_full_url base_url (pyStrip (pyStr (pyGetD data "url" (.str "")))))]
    .ok (cleaned, ["address", "price", "url"].filter (fun f => lookupSD cleaned f "" = ""))

/-- Model of `save_properties_to_db` (src/utils.py:202-225), returning the
request bodies POSTed to the CRUD API, in order.  Records whose `error`
field is truthy are skipped; a per-record exception (cleaning raising) is
caught and skips only that record's POST; the HTTP response status does not
affect which records are forwarded.  The `broker` key is appended because
`cleaned_prop` never contains it. -/
def save_properties_to_db (properties : List (List (String × PyVal))) (broker_name : String) :
    List (List (String × String)) :=
  match properties with
  | [] => []
  | prop :: rest =>
    if pyTruthy (pyGet prop "error") then save_properties_to_db rest broker_name
    else
      match clean_property_data prop "" with
      | .error _ => save_properties_to_db rest broker_name
      | .ok (cleaned, _) => (cleaned ++ [("broker", broker_name)]) :: save_properties_to_db rest broker_name

/-- Result object of a successful `crawler.arun` extraction call. -/
structure CrawlResult where
  success : Bool
  extracted_content : Option String

/-- Outcome of one `crawler.arun` extraction attempt: either a result
object or a raised exception with message `str(e)`. -/
inductive ArunOutcome where
  | ok (res : CrawlResult)
  | exn (msg : String)

/-- The rate-limit test of src/scraper.py:136-137:
`"rate limit" in str(e).lower() or "ratelimit" in str(e).lower()`. -/
def isRateLimitError (msg : String) : Bool :=
  pyContains (pyLower msg) "rate limit" || pyContains (pyLower msg) "ratelimit"

/-- The retry loop of src/scraper.py:122-148.  `arun k` is the outcome of
the (k+1)-th attempt and `attempts` counts calls made so far.  The `fuel`
argument is `max_retries - current_retry`, the number of loop iterations
the `while current_retry < max_retries` guard still admits, so the
source's `current_retry + 1 < max_retries` test is `fuel > 1`, i.e.
`fuel - 1 > 0` after the increment.  The result pairs the total number of
attempts with either the first successful crawl result or the exception
that escapes the loop.  The `fuel = 0` fallback models the `NameError`
Python would raise on the unbound `result` (unreachable from the initial
state, where `fuel = max_retries = 3 > 0`). -/
def retryAux (arun : Nat → ArunOutcome) : Nat → Nat → Nat × Except String CrawlResult
  | 0, attempts => (attempts, .error "NameError: result is not defined")
  | fuel + 1, attempts =>
    match arun attempts with
    | .ok r => (attempts + 1, .ok r)
    | .exn msg =>
      if isRateLimitError msg then
        if fuel > 0 then retryAux arun fuel (attempts + 1)
        else (attempts + 1, .error msg)
      else (attempts + 1, .error msg)

/-- The retry loop with the source's fixed `max_retries = 3`, starting at
`current_retry = 0` with no attempts made. -/
def retryLoop (arun : Nat → ArunOutcome) : Nat × Except String CrawlResult :=
  retryAux arun 3 0

/-- An error dict `{"error": True, "message": msg}` as built throughout
`process_listing`. -/
def errorDict (msg : String) : List (String × PyVal) :=
  [("error", .bool true), ("message", .str msg)]

/-- Python dict assignment `d[k] = v` on the association-list model: update
in place if the key exists, append otherwise. -/
def setF (l : List (String × PyVal)) (k : String) (v : PyVal) : List (String × PyVal) :=
  match l with
  | [] => [(k, v)]
  | (k1, v1) :: rest => if k1 = k then (k, v) :: rest else (k1, v1) :: setF rest k v

/-- Interpretation of the parsed extraction JSON, src/scraper.py:156-172:
an empty array is the structured "LLM returned empty list" failure, a
nonempty array is replaced by its first element, then the discovered
listing URL (when present) is cleaned and written into the record and
`error: False` is stamped.  Item assignment on a non-dict raises
`TypeError` (escaping to `process_listing`'s outer handler). -/
def interpretParsed (property_data : PyVal) (listing_url domain : String) :
    Except String (List (String × PyVal)) :=
  let pd : Except String PyVal :=
    match property_data with
    | .list [] => .error "EMPTY_LIST_SENTINEL"
    | .list (x :: _) => .ok x
    | v => .ok v
  match pd with
  | .error _ => .ok (errorDict "LLM returned empty list")
  | .ok v =>
    match v with
    | .dict fields =>
      let fields1 :=
        if listing_url ≠ "" then
          setF fields "url" (.str (clean_url (ensure_full_url domain listing_url)))
        else fields
      .ok (setF fields1 "error" (.bool false))
    | _ => .error "TypeError: object does not support item assignment"

/-- Outcome of the best-effort detail-page fetch (src/scraper.py:86-94):
a result with a success flag and page HTML, or a raised exception. -/
inductive FetchOutcome where
  | ok (success : Bool) (html : String)
  | exn (msg : String)

/-- External collaborators of one `process_listing` call: the detail-page
fetch, the HTML-to-Markdown conversion, the per-attempt LLM extraction
outcomes and the JSON parser (`Option.none` models `json.JSONDecodeError`). -/
structure ProcEnv where
  domain : String
  linkedFetch : FetchOutcome
  md : String → String
  arun : String → Nat → ArunOutcome
  jsonLoads : String → Option PyVal

/-- The body of `process_listing` (src/scraper.py:78-184), i.e. everything
inside its `try`.  A `.error` is an exception reaching the outer handler
on line 185.  The linked page is fetched only when a listing URL is given,
and its failures are swallowed (lines 86-94); the retry loop's exception
propagates; unparseable JSON yields the structured "JSON parsing error"
record; an unsuccessful or contentless result yields "Extraction failed". -/
def process_listing_body (env : ProcEnv) (listing_html listing_url : String) :
    Except String (List (String × PyVal)) :=
  let linked_page_content : String :=
    if listing_url ≠ "" then
      match env.linkedFetch with
      | .ok true html => html
      | .ok false _ => ""
      | .exn _ => ""
    else ""
  let combined_markdown := env.md (listing_html ++ "\n\n" ++ linked_page_content)
  match (retryLoop (env.arun combined_markdown)).2 with
  | .error e => .error e
  | .ok result =>
    match result.extracted_content with
    | some s =>
      if result.success && (s ≠ "") then
        match env.jsonLoads s with
        | some pd => interpretParsed pd listing_url env.domain
        | Option.none => .ok (errorDict "JSON parsing error")
      else .ok (errorDict "Extraction failed")
    | Option.none => .ok (errorDict "Extraction failed")

/-- Model of `process_listing` (src/scraper.py:76-187): the body's value,
with any exception converted by the handler on lines 185-187 into
`{"error": True, "message": str(e)}`. -/
def process_listing (env : ProcEnv) (listing_html listing_url : String) :
    List (String × PyVal) :=
  match process_listing_body env listing_html listing_url with
  | .ok d => d
  | .error e => errorDict e

/-- One listing node as produced by the schema-based discovery step
(`html_content` and `listing_url`, defaulting to `""`). -/
structure ListingNode where
  html_content : String
  listing_url : String
deriving DecidableEq

/-- Observable events of the per-listing loop of src/scraper.py:247-269:
the inter-listing sleep, a listing handed to `process_listing`, and a
listing skipped for having empty HTML. -/
inductive LoopEvent where
  | delay
  | processed (l : ListingNode)
  | skipped (l : ListingNode)
deriving DecidableEq

/-- The per-listing loop over the truncated listing list, starting at index
`i`: before every iteration with `i > 0` an inter-listing delay is
performed (src/scraper.py:251-254), listings with empty HTML are then
skipped (260-262), and every other listing is processed, its result
appended when truthy (264-266). -/
def runListingsAux (procEnvs : Nat → ProcEnv) :
    List ListingNode → Nat → List LoopEvent × List (List (String × PyVal))
  | [], _ => ([], [])
  | node :: rest, i =>
    let pre : List LoopEvent := if i > 0 then [.delay] else []
    if node.html_content = "" then
      let r := runListingsAux procEnvs rest (i + 1)
      (pre ++ .skipped node :: r.1, r.2)
    else
      let d := process_listing (procEnvs i) node.html_content node.listing_url
      let r := runListingsAux procEnvs rest (i + 1)
      (pre ++ .processed node :: r.1, (if d.isEmpty then [] else [d]) ++ r.2)

/-- The listing loop of `PropertyScraper.scrape` (src/scraper.py:242-269):
`listing_count = min(len(listings_data), limit)` listings are iterated. -/
def runListings (procEnvs : Nat → ProcEnv) (listings : List ListingNode) (limit : Nat) :
    List LoopEvent × List (List (String × PyVal)) :=
  runListingsAux procEnvs (listings.take (min listings.length limit)) 0

/-- Result object of the main listings-page crawl. -/
structure MainCrawlResult where
  success : Bool
  extracted_content : Option String

/-- Outcome of the main listings-page crawl: result object or exception. -/
inductive MainCrawlOutcome where
  | ok (res : MainCrawlResult)
  | exn (msg : String)

/-- External collaborators of one `PropertyScraper.scrape` run.  `enter`
and `exitR` are the `async with AsyncWebCrawler(...)` context manager's
enter/exit steps, which the source runs OUTSIDE its `try` (lines 193-297);
`jsonLoadsListings` models `json.loads` on the extracted listings JSON
together with the subsequent per-listing `.get` shape access, `Option.none`
standing for the exceptions either can raise; `dbOutcome` is the
`save_properties_to_db` call (whose own per-record handlers make it total
in practice, but whose client construction may raise). -/
structure ScrapeEnv where
  enter : Except String Unit
  exitR : Except String Unit
  mainCrawl : MainCrawlOutcome
  jsonLoadsListings : String → Option (List ListingNode)
  procEnvs : Nat → ProcEnv
  dbOutcome : Except String Unit

/-- The body of `scrape` inside its `try` (src/scraper.py:196-288).  A
`.error` is an exception reaching the handler on line 289.  The initial
crawl has its own inner handler returning `[]` (lines 212-219); page-level
failure, missing content and zero discovered listings all return `[]`; the
database save runs only when some properties were collected. -/
def scrape_body (env : ScrapeEnv) (limit : Nat) : Except String (List (List (String × PyVal))) :=
  match env.mainCrawl with
  | .exn _ => .ok []
  | .ok res =>
    if !res.success then .ok []
    else
      match res.extracted_content with
      | Option.none => .ok []
      | some s =>
        if s = "" then .ok []
        else
          match env.jsonLoadsListings s with
          | Option.none => .error "json.JSONDecodeError"
          | some listings =>
            if listings.isEmpty then .ok []
            else
              let properties := (runListings env.procEnvs listings limit).2
              if properties.isEmpty then .ok properties
              else
                match env.dbOutcome with
                | .error e => .error e
                | .ok _ => .ok properties

/-- Model of `PropertyScraper.scrape` (src/scraper.py:189-297).  The
`async with` enter runs before the `try`, so its exception propagates to
the caller; the handler on lines 289-294 converts any exception inside the
`try` into `[]`; the context-manager exit runs last and its exception also
propagates. -/
def scrape (env : ScrapeEnv) (limit : Nat) : Except String (List (List (String × PyVal))) :=
  match env.enter with
  | .error e => .error e
  | .ok _ =>
    let r : List (List (String × PyVal)) :=
      match scrape_body env limit with
      | .ok properties => properties
      | .error _ => []
    match env.exitR with
    | .error e => .error e
    | .ok _ => .ok r

/-- Lookup of a key in the association-list model of a dict (Python
`d[k]` when present). -/
def pyLookup (l : List (String × PyVal)) (k : String) : Option PyVal :=
  match l with
  | [] => Option.none
  | (k1, v) :: rest => if k1 = k then some v else pyLookup rest k

/-- Whether a value is a Python `str`. -/
def isStrVal : PyVal → Bool
  | .str _ => true
  | _ => false

/-- The listings handed to `process_listing`, in order, read off the loop
events. -/
def processedNodes (events : List LoopEvent) : List ListingNode :=
  events.filterMap (fun e => match e with | .processed l => some l | _ => Option.none)

/-- The number of inter-listing delays in the loop events. -/
def delayCount (events : List LoopEvent) : Nat :=
  events.countP (fun e => e == LoopEvent.delay)

/-- The specification-side event shape of the listing loop: the first
listing is processed immediately and exactly one delay precedes each later
listing. -/
def interleaveDelays : List ListingNode → List LoopEvent
  | [] => []
  | l :: rest => .processed l :: rest.flatMap (fun n => [.delay, .processed n])

/-- A rate-limited extraction outcome on every attempt (witness input). -/
def arunAllRL : Nat → ArunOutcome := fun _ => .exn "Rate limit reached, try again in 2.5s"

/-- A rate-limited first attempt followed by success (witness input). -/
def arunOnceRL : Nat → ArunOutcome := fun n =>
  if n = 0 then .exn "ratelimit: try again in 2.5s"
  else .ok { success := true, extracted_content := some "[]" }

/-- A broker whose domain lacks a scheme (witness input). -/
def brokerNoScheme : BrokerConfig :=
  { name := "pararius"
    domain := "www.pararius.com"
    url_template := "https://www.pararius.com/apartments/{area}"
    listing_selector := "li.search-list__item"
    next_button_selector := ""
    cookie_modal_selector := ""
    fetch_detail_pages := false }

/-- A broker whose URL template has no `{area}` placeholder (witness
input). -/
def brokerFixedUrl : BrokerConfig :=
  { name := "fixed"
    domain := "https://fixed.example.com"
    url_template := "https://fixed.example.com/rentals"
    listing_selector := ".listing"
    next_button_selector := ""
    cookie_modal_selector := ""
    fetch_detail_pages := false }

/-- A `process_listing` environment whose extraction attempts raise a
non-rate-limit provider error (witness input). -/
def procEnvTrivial : ProcEnv :=
  { domain := "https://x.example.com"
    linkedFetch := .exn "connection refused"
    md := fun s => s
    arun := fun _ _ => .exn "provider unavailable"
    jsonLoads := fun _ => Option.none }

/-- The constant per-listing environment family for the loop (witness
input). -/
def procEnvsTrivial : Nat → ProcEnv := fun _ => procEnvTrivial

/-- A `process_listing` environment whose extraction succeeds as a call but
reports an unsuccessful result (witness input). -/
def procEnvFailedResult : ProcEnv :=
  { domain := "https://x.example.com"
    linkedFetch := .exn "connection refused"
    md := fun s => s
    arun := fun _ _ => .ok { success := false, extracted_content := some "x" }
    jsonLoads := fun _ => Option.none }

/-- A scrape environment that reaches `json.loads` and has it raise
(witness input). -/
def scrapeEnvJsonErr : ScrapeEnv :=
  { enter := .ok ()
    exitR := .ok ()
    mainCrawl := .ok { success := true, extracted_content := some "not json" }
    jsonLoadsListings := fun _ => Option.none
    procEnvs := fun _ => procEnvTrivial
    dbOutcome := .ok () }

/-- Five discovered listing nodes, all with content (witness input). -/
def nodes5 : List ListingNode :=
  [ { html_content := "<li>a</li>", listing_url := "/a" }
  , { html_content := "<li>b</li>", listing_url := "/b" }
  , { html_content := "<li>c</li>", listing_url := "/c" }
  , { html_content := "<li>d</li>", listing_url := "/d" }
  , { html_content := "<li>e</li>", listing_url := "/e" } ]

/-- A scrape environment whose crawler context manager fails on entry
(counterexample input). -/
def scrapeEnvBad : ScrapeEnv :=
  { enter := .error "BrowserType.launch: Executable does not exist"
    exitR := .ok ()
    mainCrawl := .exn "unreachable"
    jsonLoadsListings := fun _ => Option.none
    procEnvs := fun _ => procEnvTrivial
    dbOutcome := .ok () }

/-- A scrape environment whose crawler context manager works but whose
initial crawl raises (witness input). -/
def scrapeEnvOk : ScrapeEnv :=
  { enter := .ok ()
    exitR := .ok ()
    mainCrawl := .exn "net::ERR_NAME_NOT_RESOLVED"
    jsonLoadsListings := fun _ => Option.none
    procEnvs := fun _ => procEnvTrivial
    dbOutcome := .ok () }

/-- C1: in the per-listing extraction retry loop, three consecutive
rate-limit failures make the operation be attempted exactly 3 times, after
which the third error is raised; a rate-limit failure followed by a success
makes exactly 2 attempts occur, returning the extraction result. -/
theorem claim_C1_rate_limit_retry :
    ∀ (arun : Nat → ArunOutcome) (m0 m1 m2 : String) (r : CrawlResult),
    (arun 0 = .exn m0 → arun 1 = .exn m1 → arun 2 = .exn m2 →
     isRateLimitError m0 = true → isRateLimitError m1 = true → isRateLimitError m2 = true →
     retryLoop arun = (3, .error m2))
  ∧ (arun 0 = .exn m0 → isRateLimitError m0 = true → arun 1 = .ok r →
     retryLoop arun = (2, .ok r)) := by
  intro arun m0 m1 m2 r
  constructor
  · intro h0 h1 h2 q0 q1 q2
    simp [retryLoop, retryAux, h0, h1, h2, q0, q1, q2]
  · intro h0 q0 h1
    simp [retryLoop, retryAux, h0, h1, q0]

/-- C1 witness: concrete runs of the retry loop under the two scenarios. -/
theorem claim_C1_rate_limit_retry_witness :
    (arunAllRL 0 = .exn "Rate limit reached, try again in 2.5s"
     ∧ isRateLimitError "Rate limit reached, try again in 2.5s" = true
     ∧ retryLoop arunAllRL = (3, .error "Rate limit reached, try again in 2.5s"))
  ∧ (arunOnceRL 0 = .exn "ratelimit: try again in 2.5s"
     ∧ arunOnceRL 1 = .ok { success := true, extracted_content := some "[]" }
     ∧ retryLoop arunOnceRL = (2, .ok { success := true, extracted_content := some "[]" })) := by
  refine ⟨⟨rfl, by decide, ?_⟩, ⟨rfl, rfl, ?_⟩⟩
  · exact (claim_C1_rate_limit_retry arunAllRL
      "Rate limit reached, try again in 2.5s" "Rate limit reached, try again in 2.5s"
      "Rate limit reached, try again in 2.5s" ⟨true, some "[]"⟩).1
      rfl rfl rfl (by decide) (by decide) (by decide)
  · exact (claim_C1_rate_limit_retry arunOnceRL
      "ratelimit: try again in 2.5s" "" "" ⟨true, some "[]"⟩).2 rfl (by decide) rfl

/-- The head of the run scan with a nonempty accumulator is the
accumulator's content followed by the leading digits of the remainder. -/
theorem findAllRunsAux_acc :
    ∀ (l acc : List Char), acc ≠ [] →
    (findAllRunsAux l acc).headD [] = acc.reverse ++ l.takeWhile Char.isDigit := by
  intro l
  induction l with
  | nil =>
    intro acc h
    match acc with
    | a :: as => simp [findAllRunsAux]
  | cons c cs ih =>
    intro acc h
    by_cases hd : c.isDigit
    · rw [show findAllRunsAux (c :: cs) acc = findAllRunsAux cs (c :: acc) by
        simp [findAllRunsAux, hd]]
      rw [ih (c :: acc) (by simp)]
      simp [List.takeWhile_cons, hd]
    · have hacc : acc.isEmpty = false := by
        match acc with
        | a :: as => rfl
      rw [show findAllRunsAux (c :: cs) acc = acc.reverse :: findAllRunsAux cs [] by
        simp [findAllRunsAux, hd, hacc]]
      simp [List.takeWhile_cons, hd]

/-- The first element of `findAllRuns` is the first digit run. -/
theorem findAllRuns_headD :
    ∀ l : List Char, (findAllRuns l).headD [] = firstDigitRun l := by
  intro l
  induction l with
  | nil => rfl
  | cons c cs ih =>
    by_cases hd : c.isDigit
    · rw [show findAllRuns (c :: cs) = findAllRunsAux cs [c] by
        simp [findAllRuns, findAllRunsAux, hd]]
      rw [findAllRunsAux_acc cs [c] (by simp)]
      simp [firstDigitRun, List.dropWhile_cons, List.takeWhile_cons, hd]
    · rw [show findAllRuns (c :: cs) = findAllRuns cs by
        simp [findAllRuns, findAllRunsAux, hd]]
      rw [ih]
      simp [firstDigitRun, List.dropWhile_cons, hd]

/-- The numeric normalizers return the string of the first digit run. -/
theorem clean_price_eq_firstDigitRun (s : String) :
    clean_price (.str s) = ⟨firstDigitRun s.toList⟩ := by
  by_cases hs : s = ""
  · subst hs; rfl
  · have ht : pyTruthy (.str s) = true := by simp [pyTruthy, hs]
    have hh := findAllRuns_headD s.toList
    simp only [String.toList] at hh
    cases h : findAllRuns s.data with
    | nil =>
      rw [h] at hh
      simp [clean_price, ht, pyStr, h]
      rw [← hh]
      rfl
    | cons r t =>
      rw [h] at hh
      simp [clean_price, ht, pyStr, h]
      rw [← hh]
      rfl

/-- C2: `clean_price`, `clean_area` and `clean_bedrooms` return the first
digit run of the input string and the empty string when no digit occurs;
on `"€1,250 per month"` the first digit run is `"1"` (the comma separates
the digit runs), and `"n/a"` yields `""`. -/
theorem claim_C2_numeric_normalizers :
    ∀ s : String,
    clean_price (.str s) = ⟨firstDigitRun s.toList⟩
  ∧ clean_area (.str s) = ⟨firstDigitRun s.toList⟩
  ∧ clean_bedrooms (.str s) = ⟨firstDigitRun s.toList⟩
  ∧ ((∀ c ∈ s.toList, c.isDigit = false) → clean_price (.str s) = "")
  ∧ clean_price (.str "€1,250 per month") = "1"
  ∧ clean_price (.str "n/a") = "" := by
  intro s
  have harea : clean_area (.str s) = clean_price (.str s) := rfl
  have hbed : clean_bedrooms (.str s) = clean_price (.str s) := rfl
  refine ⟨clean_price_eq_firstDigitRun s, ?_, ?_, ?_, by decide, by decide⟩
  · rw [harea, clean_price_eq_firstDigitRun s]
  · rw [hbed, clean_price_eq_firstDigitRun s]
  · intro hnd
    rw [clean_price_eq_firstDigitRun s]
    have hdw : List.dropWhile (fun c => !c.isDigit) s.data = [] := by
      rw [List.dropWhile_eq_nil_iff]
      intro x hx
      simp [hnd x hx]
    simp only [firstDigitRun, String.toList, hdw]
    rfl

/-- C2 counterexample: the claim's example value `"1250"` is wrong — the
first digit run of `"€1,250 per month"` is `"1"`. -/
theorem claim_C2_counterexample :
    clean_price (.str "€1,250 per month") = "1" ∧ ("1" : String) ≠ "1250" := by
  exact ⟨by decide, by decide⟩

/-- C2 witness: the no-digit case at the concrete input `"n/a"`. -/
theorem claim_C2_witness :
    (∀ c ∈ ("n/a" : String).toList, c.isDigit = false)
  ∧ clean_price (.str "n/a") = "" :=
  ⟨by decide, (claim_C2_numeric_normalizers "n/a").2.2.2.1 (by decide)⟩

/-- Setting a field makes it present with the assigned value. -/
theorem pyLookup_setF_self (l : List (String × PyVal)) (k : String) (v : PyVal) :
    pyLookup (setF l k v) k = some v := by
  induction l with
  | nil => simp [setF, pyLookup]
  | cons p rest ih =>
    obtain ⟨k1, v1⟩ := p
    by_cases hk : k1 = k
    · simp [setF, hk, pyLookup]
    · simp [setF, hk, pyLookup, ih]

/-- `process_listing` returns its body's dict, or the handler's error dict
when the body raised — never an exception. -/
theorem process_listing_cases (env : ProcEnv) (lh lu : String) :
    (∃ d, process_listing_body env lh lu = .ok d ∧ process_listing env lh lu = d)
  ∨ (∃ e, process_listing_body env lh lu = .error e ∧ process_listing env lh lu = errorDict e) := by
  cases h : process_listing_body env lh lu with
  | ok d => exact Or.inl ⟨d, rfl, by simp [process_listing, h]⟩
  | error e => exact Or.inr ⟨e, rfl, by simp [process_listing, h]⟩

/-- C3: a parsed JSON array is interpreted by taking its first element when
nonempty — which, for an object element with a discovered listing URL,
yields the record stamped with `error: False` — and by the structured
"LLM returned empty list" failure when empty; no exception escapes
`process_listing` in any case. -/
theorem claim_C3_array_interpretation :
    ∀ (fields : List (String × PyVal)) (rest : List PyVal) (listing_url domain : String)
      (env : ProcEnv) (lh lu : String),
    interpretParsed (.list []) listing_url domain = .ok (errorDict "LLM returned empty list")
  ∧ (listing_url ≠ "" →
      interpretParsed (.list (.dict fields :: rest)) listing_url domain =
        .ok (setF (setF fields "url" (.str (clean_url (ensure_full_url domain listing_url))))
              "error" (.bool false))
      ∧ pyLookup (setF (setF fields "url" (.str (clean_url (ensure_full_url domain listing_url))))
              "error" (.bool false)) "error" = some (.bool false))
  ∧ ((∃ d, process_listing_body env lh lu = .ok d ∧ process_listing env lh lu = d)
   ∨ (∃ e, process_listing_body env lh lu = .error e ∧ process_listing env lh lu = errorDict e)) := by
  intro fields rest listing_url domain env lh lu
  refine ⟨rfl, ?_, process_listing_cases env lh lu⟩
  intro h
  constructor
  · simp [interpretParsed, h]
  · exact pyLookup_setF_self _ "error" _

/-- C3 witness: a nonempty array around one object, with a listing URL. -/
theorem claim_C3_witness :
    ("/listing/5" : String) ≠ ""
  ∧ interpretParsed (.list [.dict [("address", .str "Main St 1")]]) "/listing/5" "https://x.example.com"
      = .ok (setF (setF [("address", PyVal.str "Main St 1")] "url"
          (.str (clean_url (ensure_full_url "https://x.example.com" "/listing/5"))))
          "error" (.bool false)) :=
  ⟨by decide,
   ((claim_C3_array_interpretation [("address", .str "Main St 1")] [] "/listing/5"
      "https://x.example.com" procEnvTrivial "" "").2.1 (by decide)).1⟩

/-- C4 counterexample: `PropertyScraper.__init__` mutates the broker's
`domain` field when it lacks a scheme, so BrokerConfig is not immutable
after load. -/
theorem claim_C4_counterexample :
    (scraper_init_broker brokerNoScheme).domain ≠ brokerNoScheme.domain
  ∧ (scraper_init_broker brokerNoScheme).domain = "https://www.pararius.com" := by
  exact ⟨by decide, by decide⟩

/-- C4 amended: after construction, the pipeline never modifies `name`,
`listing_selector`, `next_button_selector`, `cookie_modal_selector` or
`fetch_detail_pages`; `url_template` is rewritten exactly once (before the
scraper is built) to substitute a present `{max_price}` placeholder, and
`domain` is rewritten exactly once (at scraper construction) to prepend
`https://` when it is nonempty and lacks an http/https scheme. -/
theorem claim_C4_broker_config_fields :
    ∀ (b : BrokerConfig) (max_price : Int),
    (scraper_init_broker (apply_max_price b max_price)).name = b.name
  ∧ (scraper_init_broker (apply_max_price b max_price)).listing_selector = b.listing_selector
  ∧ (scraper_init_broker (apply_max_price b max_price)).next_button_selector = b.next_button_selector
  ∧ (scraper_init_broker (apply_max_price b max_price)).cookie_modal_selector = b.cookie_modal_selector
  ∧ (scraper_init_broker (apply_max_price b max_price)).fetch_detail_pages = b.fetch_detail_pages
  ∧ (scraper_init_broker (apply_max_price b max_price)).domain =
      (if (b.domain != "") && !(pyStartsWith b.domain "http://" || pyStartsWith b.domain "https://")
       then "https://" ++ b.domain else b.domain)
  ∧ (scraper_init_broker (apply_max_price b max_price)).url_template =
      (if pyContains b.url_template "{max_price}"
       then pyReplace b.url_template "{max_price}" (toString max_price) else b.url_template) := by
  intro b mp
  obtain ⟨n, d, u, ls, nb, cm, f⟩ := b
  simp only [apply_max_price, scraper_init_broker]
  split_ifs <;> simp_all

/-- C5 amended: `clean_price`/`clean_area`/`clean_bedrooms`,
`clean_boolean`, `clean_status` and `clean_energy_label` are total over
every value (their codomains being the expected enumerations), and
`clean_date` returns without raising on every falsy or string input —
the reformatted `YYYY-MM-DD` date when the input parses under that format,
`""` otherwise — but raises `TypeError` on a truthy non-string input,
because only `ValueError` is caught. -/
theorem claim_C5_normalizer_totality :
    ∀ (v : PyVal) (s : String),
    (pyTruthy v = true → isStrVal v = false →
       clean_date v = .error "TypeError: strptime() argument 1 must be str")
  ∧ (pyTruthy v = false → clean_date v = .ok "")
  ∧ (∀ y m d, parseYMD s = some (y, m, d) → clean_date (.str s) = .ok (fmtYMD y m d))
  ∧ (parseYMD s = Option.none → clean_date (.str s) = .ok "")
  ∧ (clean_boolean v = "true" ∨ clean_boolean v = "false")
  ∧ clean_status v ∈ ["available", "rented", "option"]
  ∧ (clean_energy_label v ∈ validEnergyLabels ∨ clean_energy_label v = "")
  ∧ clean_date (.str "2025-04-01") = .ok "2025-04-01"
  ∧ clean_date (.str "April 2025") = .ok "" := by
  intro v s
  refine ⟨?_, ?_, ?_, ?_, ?_, ?_, ?_, rfl, rfl⟩
  · intro ht hnstr
    cases v <;> simp_all [clean_date, pyTruthy, isStrVal]
  · intro hf
    simp [clean_date, hf]
  · intro y m d hp
    have hs : s ≠ "" := by
      intro hcon
      subst hcon
      simp [parseYMD] at hp
    simp [clean_date, pyTruthy, hs, hp]
  · intro hp
    by_cases hs : s = ""
    · subst hs; rfl
    · simp [clean_date, pyTruthy, hs, hp]
  · cases v with
    | bool b => cases b <;> simp [clean_boolean, pyStr, pyLower]
    | str t =>
      simp only [clean_boolean]
      split
      · exact Or.inl rfl
      · exact Or.inr rfl
    | none => exact Or.inr rfl
    | int n => exact Or.inr rfl
    | list xs => exact Or.inr rfl
    | dict fs => exact Or.inr rfl
  · simp only [clean_status]
    split_ifs <;> first | assumption | decide
  · simp only [clean_energy_label]
    split_ifs with hA hB
    · exact Or.inr rfl
    · exact Or.inl hB
    · exact Or.inr rfl

/-- C5 counterexample: `clean_date` raises `TypeError` (uncaught, since the
source catches only `ValueError`) on a truthy non-string input, so the
normalizers are not all total over every input value. -/
theorem claim_C5_counterexample :
    clean_date (.int 5) = .error "TypeError: strptime() argument 1 must be str" := rfl

/-- C5 witness: the TypeError case at `5`, and the two date behaviors at
concrete strings. -/
theorem claim_C5_witness :
    (pyTruthy (PyVal.int 5) = true ∧ isStrVal (PyVal.int 5) = false
     ∧ clean_date (.int 5) = .error "TypeError: strptime() argument 1 must be str")
  ∧ (parseYMD "2025-04-01" = some (2025, 4, 1)
     ∧ clean_date (.str "2025-04-01") = .ok (fmtYMD 2025 4 1))
  ∧ (parseYMD "April 2025" = Option.none ∧ clean_date (.str "April 2025") = .ok "") :=
  ⟨⟨rfl, rfl, (claim_C5_normalizer_totality (.int 5) "").1 rfl rfl⟩,
   ⟨rfl, (claim_C5_normalizer_totality (.int 5) "2025-04-01").2.2.1 2025 4 1 rfl⟩,
   ⟨rfl, (claim_C5_normalizer_totality (.int 5) "April 2025").2.2.2.1 rfl⟩⟩

/-- From any index past the first, every iterated listing (with content) is
preceded by exactly one delay. -/
theorem runListingsAux_events_pos (pe : Nat → ProcEnv) :
    ∀ (l : List ListingNode) (i : Nat), 1 ≤ i →
    (∀ n ∈ l, n.html_content ≠ "") →
    (runListingsAux pe l i).1 = l.flatMap (fun n => [.delay, .processed n]) := by
  intro l
  induction l with
  | nil => intro i hi h; simp [runListingsAux]
  | cons node rest ih =>
    intro i hi h
    have hnode : node.html_content ≠ "" := h node (by simp)
    have hpos : i > 0 := hi
    have hrest := ih (i + 1) (by omega) (fun n hn => h n (by simp [hn]))
    simp [runListingsAux, hnode, hpos, hrest]

/-- Starting at index 0 with all-nonempty listings, the loop events are the
first listing processed immediately and one delay before each later one. -/
theorem runListingsAux_events_zero (pe : Nat → ProcEnv) :
    ∀ l : List ListingNode, (∀ n ∈ l, n.html_content ≠ "") →
    (runListingsAux pe l 0).1 = interleaveDelays l := by
  intro l h
  cases l with
  | nil => rfl
  | cons node rest =>
    have hnode : node.html_content ≠ "" := h node (by simp)
    have hrest := runListingsAux_events_pos pe rest 1 (by omega)
      (fun n hn => h n (by simp [hn]))
    simp [runListingsAux, hnode, hrest, interleaveDelays]

/-- The processed listings of the interleaved event shape are the listing
list itself, in order. -/
theorem processedNodes_interleaveDelays :
    ∀ l : List ListingNode, processedNodes (interleaveDelays l) = l := by
  have aux : ∀ rest : List ListingNode,
      processedNodes (rest.flatMap (fun n => [LoopEvent.delay, LoopEvent.processed n])) = rest := by
    intro rest
    induction rest with
    | nil => rfl
    | cons m t ih => simp [processedNodes, List.filterMap_cons] at ih ⊢; exact ih
  intro l
  cases l with
  | nil => rfl
  | cons n rest => simp [interleaveDelays, processedNodes, List.filterMap_cons]; exact aux rest

/-- The interleaved event shape has one delay per listing after the first. -/
theorem delayCount_interleaveDelays :
    ∀ l : List ListingNode, delayCount (interleaveDelays l) = l.length - 1 := by
  have aux : ∀ rest : List ListingNode,
      delayCount (rest.flatMap (fun n => [LoopEvent.delay, LoopEvent.processed n])) = rest.length := by
    intro rest
    induction rest with
    | nil => rfl
    | cons m t ih => simp [delayCount, List.countP_cons] at ih ⊢; omega
  intro l
  cases l with
  | nil => rfl
  | cons n rest => simp [interleaveDelays, delayCount, List.countP_cons] at aux ⊢; exact aux rest

/-- C6: with limit `k` over `n` discovered listings (all with content), the
loop hands exactly `min n k` listings to `process_listing`, in document
order, with exactly one inter-listing delay before each processed listing
after the first — `min n k - 1` delays in total. -/
theorem claim_C6_listing_loop :
    ∀ (procEnvs : Nat → ProcEnv) (listings : List ListingNode) (limit : Nat),
    (∀ n ∈ listings.take (min listings.length limit), n.html_content ≠ "") →
    (runListings procEnvs listings limit).1
        = interleaveDelays (listings.take (min listings.length limit))
  ∧ processedNodes (runListings procEnvs listings limit).1
        = listings.take (min listings.length limit)
  ∧ delayCount (runListings procEnvs listings limit).1 = min listings.length limit - 1 := by
  intro pe listings limit h
  have h1 : (runListings pe listings limit).1
      = interleaveDelays (listings.take (min listings.length limit)) :=
    runListingsAux_events_zero pe _ h
  refine ⟨h1, ?_, ?_⟩
  · rw [h1, processedNodes_interleaveDelays]
  · rw [h1, delayCount_interleaveDelays, List.length_take]
    omega

/-- C6 witness: five listing nodes with limit 3. -/
theorem claim_C6_witness :
    (∀ n ∈ nodes5.take (min nodes5.length 3), n.html_content ≠ "")
  ∧ ((runListings procEnvsTrivial nodes5 3).1
        = interleaveDelays (nodes5.take (min nodes5.length 3))
     ∧ processedNodes (runListings procEnvsTrivial nodes5 3).1
        = nodes5.take (min nodes5.length 3)
     ∧ delayCount (runListings procEnvsTrivial nodes5 3).1 = min nodes5.length 3 - 1) :=
  ⟨by decide, claim_C6_listing_loop procEnvsTrivial nodes5 3 (by decide)⟩

/-- A required field that is empty after cleaning appears in the warning
list, while the record itself is returned regardless. -/
theorem clean_property_warnings :
    ∀ (prop : List (String × PyVal)) (c : List (String × String)) (w : List String),
    clean_property_data prop "" = .ok (c, w) →
    ∀ f ∈ (["address", "price", "url"] : List String),
    lookupSD c f "" = "" → f ∈ w := by
  intro prop c w h f hf hempty
  unfold clean_property_data at h
  cases hd : clean_date (pyGet prop "available_from") with
  | error e =>
    rw [hd] at h
    exact absurd h (by simp)
  | ok af =>
    rw [hd] at h
    simp only [Except.ok.injEq, Prod.mk.injEq] at h
    rw [← h.2]
    rw [List.mem_filter]
    refine ⟨hf, ?_⟩
    rw [← h.1] at hempty
    simp [hempty]

/-- Every non-error record whose cleaning succeeds is forwarded (with the
broker name appended) to the CRUD API. -/
theorem save_properties_forwards :
    ∀ (props : List (List (String × PyVal))) (prop : List (String × PyVal))
      (broker : String) (c : List (String × String)) (w : List String),
    prop ∈ props →
    pyTruthy (pyGet prop "error") = false →
    clean_property_data prop "" = .ok (c, w) →
    (c ++ [("broker", broker)]) ∈ save_properties_to_db props broker := by
  intro props
  induction props with
  | nil => intro prop broker c w hmem; simp at hmem
  | cons p rest ih =>
    intro prop broker c w hmem herr hclean
    rcases List.mem_cons.mp hmem with heq | htail
    · subst heq
      simp only [save_properties_to_db]
      simp [herr, hclean]
    · have hsub := ih prop broker c w htail herr hclean
      simp only [save_properties_to_db]
      by_cases hp : pyTruthy (pyGet p "error") = true
      · simp [hp, hsub]
      · simp only [Bool.not_eq_true] at hp
        cases hcp : clean_property_data p "" with
        | error e => simp [hp, hcp, hsub]
        | ok pr => simp [hp, hcp, hsub]

/-- C7: a record whose `address`, `price` or `url` is empty after
normalization has that field logged in the warnings, yet the cleaned
record is returned and still forwarded to the CRUD API by the persistence
step. -/
theorem claim_C7_empty_fields_forwarded :
    ∀ (props : List (List (String × PyVal))) (prop : List (String × PyVal))
      (broker : String) (c : List (String × String)) (w : List String),
    prop ∈ props →
    pyTruthy (pyGet prop "error") = false →
    clean_property_data prop "" = .ok (c, w) →
    (lookupSD c "address" "" = "" → "address" ∈ w)
  ∧ (lookupSD c "price" "" = "" → "price" ∈ w)
  ∧ (lookupSD c "url" "" = "" → "url" ∈ w)
  ∧ (c ++ [("broker", broker)]) ∈ save_properties_to_db props broker := by
  intro props prop broker c w hmem herr hclean
  refine ⟨?_, ?_, ?_, save_properties_forwards props prop broker c w hmem herr hclean⟩
  · exact clean_property_warnings prop c w hclean "address" (by decide)
  · exact clean_property_warnings prop c w hclean "price" (by decide)
  · exact clean_property_warnings prop c w hclean "url" (by decide)

/-- C7 witness: the empty record cleans to all-empty required fields, is
warned on all three, and is still forwarded. -/
theorem claim_C7_witness :
    (([] : List (String × PyVal)) ∈ [([] : List (String × PyVal))]
     ∧ pyTruthy (pyGet [] "error") = false
     ∧ clean_property_data [] "" = .ok
        ([("address", ""), ("price", ""), ("area", ""), ("bedrooms", ""),
          ("energy_label", ""), ("furnished", "false"), ("including_bills", "false"),
          ("status", "available"), ("available_from", ""), ("url", "")],
         ["address", "price", "url"])
     ∧ lookupSD [("address", ""), ("price", ""), ("area", ""), ("bedrooms", ""),
          ("energy_label", ""), ("furnished", "false"), ("including_bills", "false"),
          ("status", "available"), ("available_from", ""), ("url", "")] "address" "" = "")
  ∧ ("address" ∈ (["address", "price", "url"] : List String)
     ∧ ([("address", ""), ("price", ""), ("area", ""), ("bedrooms", ""),
          ("energy_label", ""), ("furnished", "false"), ("including_bills", "false"),
          ("status", "available"), ("available_from", ""), ("url", "")]
          ++ [("broker", "pararius")])
        ∈ save_properties_to_db [([] : List (String × PyVal))] "pararius") :=
  ⟨⟨List.mem_singleton.mpr rfl, rfl, rfl, rfl⟩,
   ⟨(claim_C7_empty_fields_forwarded [[]] [] "pararius" _ _
       (List.mem_singleton.mpr rfl) rfl rfl).1 rfl,
    (claim_C7_empty_fields_forwarded [[]] [] "pararius" _ _
       (List.mem_singleton.mpr rfl) rfl rfl).2.2.2⟩⟩

/-- ASCII uppercasing preserves whitespace-ness. -/
theorem pyIsSpace_toUpper (c : Char) : pyIsSpace c.toUpper = pyIsSpace c := by
  have key : ∀ (x : Char) (n : Nat), x.toNat = n → 33 ≤ n → pyIsSpace x = false := by
    intro x n hx hn
    simp only [pyIsSpace, Bool.or_eq_false_iff, decide_eq_false_iff_not]
    repeat' apply And.intro
    all_goals omega
  by_cases h : c.toNat ≥ 97 ∧ c.toNat ≤ 122
  · rw [show c.toUpper = Char.ofNat (c.toNat - 32) by unfold Char.toUpper; simp [h]]
    have hvalid : Nat.isValidChar (c.toNat - 32) := Or.inl (by omega)
    have hval : (Char.ofNat (c.toNat - 32)).toNat = c.toNat - 32 := by
      simp [Char.ofNat, hvalid]
      rfl
    rw [key (Char.ofNat (c.toNat - 32)) (c.toNat - 32) hval (by omega)]
    rw [key c c.toNat rfl (by omega)]
  · rw [show c.toUpper = c by unfold Char.toUpper; simp [h]]

/-- Stripping commutes with ASCII uppercasing on character lists. -/
theorem stripL_map_toUpper (l : List Char) :
    stripL (l.map Char.toUpper) = (stripL l).map Char.toUpper := by
  have hfun : (pyIsSpace ∘ Char.toUpper) = pyIsSpace := by
    funext c
    exact pyIsSpace_toUpper c
  unfold stripL
  simp only [List.dropWhile_map, hfun]
  rw [← List.map_reverse]
  simp only [List.dropWhile_map, hfun]
  rw [← List.map_reverse]

/-- `upper` then `strip` equals `strip` then `upper` — the source applies
`.upper().strip()` while the specification speaks of matching after
trimming; the two agree. -/
theorem pyStrip_pyUpper (s : String) : pyStrip (pyUpper s) = pyUpper (pyStrip s) := by
  show (⟨stripL (s.toList.map Char.toUpper)⟩ : String) = ⟨(stripL s.toList).map Char.toUpper⟩
  rw [stripL_map_toUpper]

/-- `clean_energy_label` yields `""` or a valid label. -/
theorem clean_energy_label_cases (v : PyVal) :
    clean_energy_label v = "" ∨ clean_energy_label v ∈ validEnergyLabels := by
  simp only [clean_energy_label]
  split_ifs with h1 h2
  · exact Or.inl rfl
  · exact Or.inr h2
  · exact Or.inl rfl

/-- C8: `clean_energy_label` is idempotent and total: an input whose
trimmed, uppercased form is a valid label (`A++`, `A+`, `A`..`G`) passes
through as that form, anything else maps to `""`; `" b "` gives `"B"` and
`"Z"` gives `""`. -/
theorem claim_C8_energy_label :
    ∀ (v : PyVal) (s : String),
    clean_energy_label (.str (clean_energy_label v)) = clean_energy_label v
  ∧ (pyUpper (pyStrip s) ∈ validEnergyLabels →
       clean_energy_label (.str s) = pyUpper (pyStrip s))
  ∧ (pyUpper (pyStrip s) ∉ validEnergyLabels → clean_energy_label (.str s) = "")
  ∧ clean_energy_label (.str " b ") = "B"
  ∧ clean_energy_label (.str "Z") = "" := by
  intro v s
  have hcomm : pyStrip (pyUpper s) = pyUpper (pyStrip s) := pyStrip_pyUpper s
  refine ⟨?_, ?_, ?_, by decide, by decide⟩
  · rcases clean_energy_label_cases v with h | h
    · rw [h]; decide
    · set r := clean_energy_label v with hr
      simp only [validEnergyLabels, List.mem_cons, List.not_mem_nil, or_false] at h
      rcases h with h | h | h | h | h | h | h | h | h <;> rw [h] <;> decide
  · intro hmem
    by_cases hs : s = ""
    · subst hs
      exact absurd hmem (by decide)
    · simp only [clean_energy_label, pyStr, pyTruthy]
      rw [hcomm]
      simp [hs, hmem]
  · intro hnmem
    by_cases hs : s = ""
    · subst hs; decide
    · simp only [clean_energy_label, pyStr, pyTruthy]
      rw [hcomm]
      simp [hs, hnmem]

/-- C8 witness: the valid-label path at `" b "`. -/
theorem claim_C8_witness :
    pyUpper (pyStrip " b ") ∈ validEnergyLabels
  ∧ clean_energy_label (.str " b ") = pyUpper (pyStrip " b ") :=
  ⟨by decide, (claim_C8_energy_label (.str " b ") " b ").2.1 (by decide)⟩

/-- Splitting always yields at least one chunk. -/
theorem splitOnL_ne_nil : ∀ (pat l : List Char), splitOnL pat l ≠ [] := by
  intro pat l
  cases l with
  | nil => simp [splitOnL]
  | cons c cs =>
    rw [splitOnL]
    split
    · simp
    · split <;> simp

/-- The substring test of the embedding agrees with list-infix. -/
theorem listContainsSub_true_iff (sub l : List Char) :
    listContainsSub sub l = true ↔ sub <:+: l := by
  unfold listContainsSub
  rw [List.any_eq_true]
  constructor
  · rintro ⟨t, ht, hp⟩
    exact List.infix_iff_prefix_suffix.mpr
      ⟨t, ( List.isPrefixOf_iff_prefix.mp hp), (List.mem_tails _ _).mp ht⟩
  · intro hi
    obtain ⟨t, hpre, hsuf⟩ := List.infix_iff_prefix_suffix.mp hi
    exact ⟨t, (List.mem_tails _ _).mpr hsuf, ( List.isPrefixOf_iff_prefix.mpr hpre)⟩

/-- Replacing every occurrence equals splitting at every occurrence and
rejoining the chunks with the replacement (bounded-length version for the
induction). -/
theorem replaceAllL_join_aux :
    ∀ (n : Nat) (pat rep l : List Char), pat ≠ [] → l.length ≤ n →
    replaceAllL pat rep l = joinWith rep (splitOnL pat l) := by
  intro n
  induction n with
  | zero =>
    intro pat rep l hpat hlen
    match l with
    | [] => simp [replaceAllL, splitOnL, joinWith]
  | succ n ih =>
    intro pat rep l hpat hlen
    cases l with
    | nil => simp [replaceAllL, splitOnL, joinWith]
    | cons c cs =>
      rw [replaceAllL, splitOnL]
      have hp1 : 1 ≤ pat.length := by
        cases pat with
        | nil => exact absurd rfl hpat
        | cons a t => simp
      by_cases hpre : pat.isPrefixOf (c :: cs)
      · have hcond : pat ≠ [] ∧ pat.isPrefixOf (c :: cs) := ⟨hpat, hpre⟩
        rw [if_pos hcond, if_pos hcond]
        have hlen2 : ((c :: cs).drop pat.length).length ≤ n := by
          simp only [List.length_drop, List.length_cons]
          simp only [List.length_cons] at hlen
          omega
        rw [ih pat rep _ hpat hlen2]
        cases hsp : splitOnL pat ((c :: cs).drop pat.length) with
        | nil => exact absurd hsp (splitOnL_ne_nil pat _)
        | cons x t => simp [joinWith]
      · have hcond : ¬(pat ≠ [] ∧ pat.isPrefixOf (c :: cs)) := fun h => hpre h.2
        rw [if_neg hcond, if_neg hcond]
        have hlen2 : cs.length ≤ n := by
          simp only [List.length_cons] at hlen
          omega
        rw [ih pat rep cs hpat hlen2]
        cases hsp : splitOnL pat cs with
        | nil => exact absurd hsp (splitOnL_ne_nil pat _)
        | cons chunk t =>
          cases t with
          | nil => simp [joinWith]
          | cons y t2 => simp [joinWith]

/-- A subject without any occurrence of the pattern is a single chunk. -/
theorem splitOnL_eq_of_not_infix :
    ∀ (pat l : List Char), ¬(pat <:+: l) → splitOnL pat l = [l] := by
  intro pat l
  induction l with
  | nil => intro h; simp [splitOnL]
  | cons c cs ih =>
    intro h
    rw [splitOnL]
    have hnpre : ¬ pat.isPrefixOf (c :: cs) = true := by
      intro hp
      exact h (List.infix_iff_prefix_suffix.mpr
        ⟨c :: cs, ( List.isPrefixOf_iff_prefix.mp hp), List.suffix_refl _⟩)
    rw [if_neg (fun hc => hnpre hc.2)]
    have hcs : ¬(pat <:+: cs) := fun hi => h (hi.trans (List.suffix_cons c cs).isInfix)
    rw [ih hcs]

/-- C9: `get_url` is pure substitution of the `{area}` placeholder — the
result is the template split at every `{area}` occurrence and rejoined with
the area string — and a template not containing `{area}` is returned
unchanged. -/
theorem claim_C9_get_url :
    ∀ (b : BrokerConfig) (area : String),
    b.get_url area
      = ⟨joinWith area.toList (splitOnL "{area}".toList b.url_template.toList)⟩
  ∧ (pyContains b.url_template "{area}" = false → b.get_url area = b.url_template) := by
  intro b area
  have hne : "{area}".toList ≠ [] := by decide
  have h1 : b.get_url area
      = ⟨joinWith area.toList (splitOnL "{area}".toList b.url_template.toList)⟩ := by
    unfold BrokerConfig.get_url pyReplace
    rw [if_neg (by decide : ¬("{area}" : String) = "")]
    exact congrArg String.mk
      (replaceAllL_join_aux b.url_template.toList.length "{area}".toList area.toList
        b.url_template.toList hne (Nat.le_refl _))
  refine ⟨h1, ?_⟩
  intro hfalse
  have hni : ¬("{area}".toList <:+: b.url_template.toList) := by
    intro hi
    unfold pyContains at hfalse
    rw [(listContainsSub_true_iff "{area}".toList b.url_template.toList).mpr hi] at hfalse
    exact absurd hfalse (by simp)
  rw [h1, splitOnL_eq_of_not_infix _ _ hni]
  rfl

/-- C9 witness: a fixed URL template without the placeholder is returned
unchanged. -/
theorem claim_C9_witness :
    pyContains brokerFixedUrl.url_template "{area}" = false
  ∧ brokerFixedUrl.get_url "utrecht" = brokerFixedUrl.url_template :=
  ⟨by decide, (claim_C9_get_url brokerFixedUrl "utrecht").2 (by decide)⟩

/-- C10 counterexample: the `async with AsyncWebCrawler(...)` enter step
runs outside `scrape`'s `try`, so a crawler-startup exception propagates to
the caller instead of yielding the empty list. -/
theorem claim_C10_counterexample :
    scrape scrapeEnvBad 3 = .error "BrowserType.launch: Executable does not exist" := rfl

/-- C10 amended: `process_listing` never raises — it returns its body's
dict and converts any internal exception (rate-limit exhaustion included)
into `{"error": True, "message": str(e)}`; `scrape`, provided the crawler
context is entered and exited without raising, always returns a list, and
returns `[]` whenever an exception occurs inside its main `try` block; an
exception from entering (or exiting) the crawler context propagates to the
caller. -/
theorem claim_C10_exception_containment :
    ∀ (penv : ProcEnv) (lh lu e : String) (d : List (String × PyVal))
      (props : List (List (String × PyVal))) (env : ScrapeEnv) (limit : Nat),
    (process_listing_body penv lh lu = .error e → process_listing penv lh lu = errorDict e)
  ∧ (process_listing_body penv lh lu = .ok d → process_listing penv lh lu = d)
  ∧ (env.enter = .ok () → env.exitR = .ok () → scrape_body env limit = .error e →
       scrape env limit = .ok [])
  ∧ (env.enter = .ok () → env.exitR = .ok () → scrape_body env limit = .ok props →
       scrape env limit = .ok props) := by
  intro penv lh lu e d props env limit
  refine ⟨?_, ?_, ?_, ?_⟩
  · intro h
    simp [process_listing, h]
  · intro h
    simp [process_listing, h]
  · intro h1 h2 h3
    simp [scrape, h1, h2, h3]
  · intro h1 h2 h3
    simp [scrape, h1, h2, h3]

/-- C10 witness: concrete environments exercising the four contained
cases. -/
theorem claim_C10_witness :
    (process_listing_body procEnvTrivial "h" "" = .error "provider unavailable"
     ∧ process_listing procEnvTrivial "h" "" = errorDict "provider unavailable")
  ∧ (process_listing_body procEnvFailedResult "h" "" = .ok (errorDict "Extraction failed")
     ∧ process_listing procEnvFailedResult "h" "" = errorDict "Extraction failed")
  ∧ (scrapeEnvJsonErr.enter = .ok () ∧ scrapeEnvJsonErr.exitR = .ok ()
     ∧ scrape_body scrapeEnvJsonErr 3 = .error "json.JSONDecodeError"
     ∧ scrape scrapeEnvJsonErr 3 = .ok [])
  ∧ (scrapeEnvOk.enter = .ok () ∧ scrapeEnvOk.exitR = .ok ()
     ∧ scrape_body scrapeEnvOk 3 = .ok [] ∧ scrape scrapeEnvOk 3 = .ok []) :=
  ⟨⟨rfl, (claim_C10_exception_containment procEnvTrivial "h" "" "provider unavailable"
      [] [] scrapeEnvOk 3).1 rfl⟩,
   ⟨rfl, (claim_C10_exception_containment procEnvFailedResult "h" "" ""
      (errorDict "Extraction failed") [] scrapeEnvOk 3).2.1 rfl⟩,
   ⟨rfl, rfl, rfl, (claim_C10_exception_containment procEnvTrivial "h" ""
      "json.JSONDecodeError" [] [] scrapeEnvJsonErr 3).2.2.1 rfl rfl rfl⟩,
   ⟨rfl, rfl, rfl, (claim_C10_exception_containment procEnvTrivial "h" "" ""
      [] [] scrapeEnvOk 3).2.2.2 rfl rfl rfl⟩⟩
